import Mathlib

/-!
Verification of the Inventory and Order Synchronization Layer of the pantry
application. The definitions below are a shallow embedding of
src/services/storageService.ts together with the entity types declared in the
types module. JavaScript strings are modelled as Lean strings and the string
operations used by the service (trim, toLowerCase, lexicographic comparison for
the remote ORDER BY name clause) are given structurally recursive models over
the underlying character lists. JavaScript numbers holding quantities are
modelled as integers. The local backing store is modelled as the pair of
persisted collections; the remote backing store is modelled as a record of the
two tables, with per-write failure oracles standing for network or server
errors and a construction oracle standing for createClient throwing.
-/

namespace Pantry

/-- Whitespace test used by the model of the JavaScript trim operation. -/
def isSpaceChar (c : Char) : Bool := c == ' ' || c == '\t' || c == '\n' || c == '\r'

/-- Model of the JavaScript toLowerCase operation on a string. -/
def lowerStr (s : String) : String := ⟨s.data.map Char.toLower⟩

/-- Model of the JavaScript trim operation on a string. -/
def trimStr (s : String) : String :=
  ⟨((s.data.dropWhile isSpaceChar).reverse.dropWhile isSpaceChar).reverse⟩

/-- Name normalization used by addOrUpdateItem: trim then toLowerCase. -/
def normalizeName (s : String) : String := lowerStr (trimStr s)

/-- Catalog entry, from the PantryItem interface of the types module. The
expiryDate field is a string on the TypeScript side; the empty string is the
falsy value standing for an absent expiry date. -/
structure PantryItem where
  id : String
  name : String
  quantity : Int
  unit : String
  category : String
  addedDate : String
  expiryDate : String
  notes : Option String
  imageUrl : Option String
  deriving DecidableEq

/-- Line item embedded in an order, from the OrderItem interface. -/
structure OrderItem where
  itemId : String
  name : String
  quantity : Int
  unit : String
  deriving DecidableEq

/-- Order status union type of the types module. -/
inductive OrderStatus where
  | pending
  | preparing
  | delivered
  | cancelled
  deriving DecidableEq

/-- Guest order, from the Order interface. -/
structure Order where
  id : String
  roomNumber : String
  items : List OrderItem
  status : OrderStatus
  timestamp : String
  completedAt : Option String
  deriving DecidableEq

/-- Argument of addOrUpdateItem: a PantryItem without id and addedDate. -/
structure Candidate where
  name : String
  quantity : Int
  unit : String
  category : String
  expiryDate : String
  notes : Option String
  imageUrl : Option String
  deriving DecidableEq

/-- The default category value of the Category enumeration. -/
def categoryOther : String := "Other"

/-- Deduplication test of addOrUpdateItem: an existing item matches the
candidate when the normalized names agree and the units are identical. -/
def matchesCandidate (c : Candidate) (i : PantryItem) : Bool :=
  normalizeName i.name == normalizeName c.name && i.unit == c.unit

/-- Result of addOrUpdateItem in local mode: the persisted item collection
together with the returned success flag and message. -/
structure AddResult where
  items : List PantryItem
  success : Bool
  message : String
  deriving DecidableEq

/-- The item built by the create branch of addOrUpdateItem in local mode:
the candidate fields spread into a record with a fresh identifier and the
current timestamp. -/
def newItemFrom (c : Candidate) (freshId now : String) : PantryItem :=
  { id := freshId, name := c.name, quantity := c.quantity, unit := c.unit,
    category := c.category, addedDate := now, expiryDate := c.expiryDate,
    notes := c.notes, imageUrl := c.imageUrl }

/-- The merge performed by the local branch of addOrUpdateItem on a matching
existing item: quantity is added, category is overwritten only when the
candidate category differs from the default, expiryDate is overwritten only
when the candidate value is truthy. -/
def mergeLocal (ex : PantryItem) (c : Candidate) : PantryItem :=
  { ex with
    quantity := ex.quantity + c.quantity,
    category := if c.category ≠ categoryOther then c.category else ex.category,
    expiryDate := if c.expiryDate ≠ "" then c.expiryDate else ex.expiryDate }

/-- Local branch of addOrUpdateItem. The freshId and now arguments stand for
the values of crypto.randomUUID and the current ISO timestamp. The update of
a matching item is persisted by mapping over the collection and replacing
every entry whose id equals the id of the matched item, as the source does. -/
def addOrUpdateItemLocal (items : List PantryItem) (c : Candidate)
    (freshId now : String) : AddResult :=
  match items.find? (matchesCandidate c) with
  | some ex =>
      { items := items.map (fun i => if i.id == ex.id then mergeLocal ex c else i),
        success := true, message := "Restocked " ++ ex.name }
  | none =>
      { items := newItemFrom c freshId now :: items,
        success := true, message := "Added new item: " ++ c.name }

/-- Stock validation loop of placeOrder: every line must reference an existing
item whose current quantity is at least the requested quantity; the first
failing line produces the returned error. -/
def validateOrder (items : List PantryItem) : List OrderItem → Option String
  | [] => none
  | l :: rest =>
    match items.find? (fun i => i.id == l.itemId) with
    | none => some ("Item " ++ l.name ++ " no longer exists.")
    | some item =>
      if item.quantity < l.quantity then
        some ("Not enough stock for " ++ item.name ++ ". Only " ++
          toString item.quantity ++ " left.")
      else
        validateOrder items rest

/-- One step of the local deduction loop of placeOrder: the first item whose
id equals the line reference has the requested quantity subtracted. -/
def deductFirst : List PantryItem → OrderItem → List PantryItem
  | [], _ => []
  | i :: rest, l =>
    if i.id == l.itemId then { i with quantity := i.quantity - l.quantity } :: rest
    else i :: deductFirst rest l

/-- The local deduction loop of placeOrder over all lines in order. -/
def deductAll (items : List PantryItem) (lines : List OrderItem) : List PantryItem :=
  lines.foldl deductFirst items

/-- Result of placeOrder in local mode: both persisted collections together
with the returned flag and optional error. -/
structure PlaceResult where
  items : List PantryItem
  orders : List Order
  success : Bool
  error : Option String
  deriving DecidableEq

/-- Local branch of placeOrder: validate every line against the fetched
items, and only when all lines pass deduct the stock, prepend the order and
persist both collections. -/
def placeOrderLocal (items : List PantryItem) (orders : List Order)
    (order : Order) : PlaceResult :=
  match validateOrder items order.items with
  | some e => { items := items, orders := orders, success := false, error := some e }
  | none =>
      { items := deductAll items order.items, orders := order :: orders,
        success := true, error := none }

/-- Terminal status test of updateOrderStatus. -/
def isTerminal : OrderStatus → Bool
  | .delivered => true
  | .cancelled => true
  | _ => false

/-- Mutation applied by the local branch of updateOrderStatus at the first
order whose id matches: the status is always set, and the completedAt field
is set only when the precomputed completion time is non-null. -/
def updateFirstOrder : List Order → String → OrderStatus → Option String → List Order
  | [], _, _, _ => []
  | o :: rest, oid, st, completedAt =>
    if o.id == oid then
      { o with
        status := st,
        completedAt := match completedAt with
          | some t => some t
          | none => o.completedAt } :: rest
    else o :: updateFirstOrder rest oid st completedAt

/-- Local branch of updateOrderStatus. The now argument stands for the
current ISO timestamp; the completion time is non-null exactly for the two
terminal statuses. -/
def updateOrderStatusLocal (orders : List Order) (orderId : String)
    (st : OrderStatus) (now : String) : List Order :=
  updateFirstOrder orders orderId st (if isTerminal st then some now else none)

/-- The low stock query: items with quantity at most the threshold and above
zero, filtered in the order written in the source. -/
def getLowStockItems (items : List PantryItem) (threshold : Int) : List PantryItem :=
  items.filter (fun i => decide (i.quantity ≤ threshold) && decide (i.quantity > 0))

/-- The low stock query at its default threshold of 10. -/
def getLowStockItemsDefault (items : List PantryItem) : List PantryItem :=
  getLowStockItems items 10

/-- Local branch of getItems: the stored collection is returned as persisted,
with no reordering. -/
def getItemsLocal (items : List PantryItem) : List PantryItem := items

/-- Lexicographic comparison of character lists by code point, the model of
the ordering used by the ORDER BY name clause of the remote backend. -/
def leChars : List Char → List Char → Bool
  | [], _ => true
  | _ :: _, [] => false
  | a :: as, b :: bs =>
    if a.toNat = b.toNat then leChars as bs else decide (a.toNat ≤ b.toNat)

/-- String comparison derived from the character comparison. -/
def strLeB (a b : String) : Bool := leChars a.data b.data

/-- Ordering of catalog items by name, as a relation. -/
def nameLe (a b : PantryItem) : Prop := strLeB a.name b.name = true

instance : DecidableRel nameLe :=
  fun a b => inferInstanceAs (Decidable (strLeB a.name b.name = true))

/-- The two remote tables. Rows are represented in the translated entity
shape; the adapter translates column names on every read and write. -/
structure RemoteDB where
  items : List PantryItem
  orders : List Order
  deriving DecidableEq

/-- Remote branch of getItems: the items table ordered by name ascending. -/
def cloudGetItems (db : RemoteDB) : List PantryItem :=
  List.insertionSort nameLe db.items

/-- Result of addOrUpdateItem in remote mode. -/
structure CloudAddResult where
  db : RemoteDB
  success : Bool
  message : String
  deriving DecidableEq

/-- The update payload of the remote merge branch of addOrUpdateItem applied
to a row: quantity and category are computed from the fetched existing item
and the candidate, and expiry date is set to the candidate value
unconditionally; the remaining columns of the row are untouched. -/
def cloudApplyMergePayload (ex : PantryItem) (c : Candidate) (row : PantryItem) :
    PantryItem :=
  { row with
    quantity := ex.quantity + c.quantity,
    category := if c.category ≠ categoryOther then c.category else ex.category,
    expiryDate := c.expiryDate }

/-- The row built by the remote insert branch of addOrUpdateItem: the insert
payload carries name, quantity, unit, category, the current timestamp and the
candidate expiry date; the id is assigned by the backend and the notes and
image columns are left null. -/
def newCloudRow (c : Candidate) (dbId now : String) : PantryItem :=
  { id := dbId, name := c.name, quantity := c.quantity, unit := c.unit,
    category := c.category, addedDate := now, expiryDate := c.expiryDate,
    notes := none, imageUrl := none }

/-- Remote branch of addOrUpdateItem. The writeOk argument is the failure
oracle for the single write performed; dbId stands for the backend assigned
identifier of an inserted row. -/
def addOrUpdateItemCloud (db : RemoteDB) (c : Candidate) (now dbId : String)
    (writeOk : Bool) : CloudAddResult :=
  let items := cloudGetItems db
  match items.find? (matchesCandidate c) with
  | some ex =>
    if writeOk then
      { db := { db with items := db.items.map (fun row =>
            if row.id == ex.id then cloudApplyMergePayload ex c row else row) },
        success := true, message := "Restocked " ++ ex.name }
    else { db := db, success := false, message := "update error" }
  | none =>
    if writeOk then
      { db := { db with items := db.items ++ [newCloudRow c dbId now] },
        success := true, message := "Added " ++ c.name }
    else { db := db, success := false, message := "insert error" }

/-- A remote quantity update: every row whose id matches is set to the given
quantity. -/
def cloudUpdateQuantity (rows : List PantryItem) (rowId : String) (q : Int) :
    List PantryItem :=
  rows.map (fun r => if r.id == rowId then { r with quantity := q } else r)

/-- The remote stock deduction loop of placeOrder: for each line the item is
looked up in the list fetched before the loop, and the corresponding row is
set to the fetched quantity minus the requested quantity. Each write has its
own failure oracle entry; a failed write is only logged and the loop
continues. -/
def cloudDeduct (fetched : List PantryItem) :
    List OrderItem → (Nat → Bool) → List PantryItem → List PantryItem
  | [], _, rows => rows
  | l :: rest, updFail, rows =>
    let rows1 :=
      match fetched.find? (fun i => i.id == l.itemId) with
      | some item =>
          if updFail 0 then rows
          else cloudUpdateQuantity rows item.id (item.quantity - l.quantity)
      | none => rows
    cloudDeduct fetched rest (fun n => updFail (n + 1)) rows1

/-- The row inserted into the remote orders table by placeOrder: the insert
payload has no completed column, so the stored row has a null completion
time. -/
def orderRow (o : Order) : Order := { o with completedAt := none }

/-- Result of placeOrder in remote mode. -/
structure CloudPlaceResult where
  db : RemoteDB
  success : Bool
  error : Option String
  deriving DecidableEq

/-- Remote branch of placeOrder: validate against the fetched items, insert
the order row, then run the best effort deduction loop. A failed order insert
is returned as a failure; failures inside the deduction loop do not change
the result. -/
def placeOrderCloud (db : RemoteDB) (order : Order) (insertOk : Bool)
    (updFail : Nat → Bool) : CloudPlaceResult :=
  let items := cloudGetItems db
  match validateOrder items order.items with
  | some e => { db := db, success := false, error := some e }
  | none =>
    if insertOk then
      let db1 : RemoteDB := { db with orders := db.orders ++ [orderRow order] }
      { db := { db1 with items := cloudDeduct items order.items updFail db1.items },
        success := true, error := none }
    else { db := db, success := false, error := some "order insert error" }

/-- Remote branch of updateOrderStatus: every row whose id matches has its
status set and its completion column set to the precomputed value, which is
null for the two non terminal statuses. -/
def updateOrderStatusCloud (db : RemoteDB) (orderId : String) (st : OrderStatus)
    (now : String) (writeOk : Bool) : RemoteDB :=
  if writeOk then
    { db with orders := db.orders.map (fun o =>
        if o.id == orderId then
          { o with
            status := st,
            completedAt := if isTerminal st then some now else none }
        else o) }
  else db

/-- Configuration record of the backend selector. -/
structure SupabaseConfig where
  url : String
  key : String
  deriving DecidableEq

/-- State of the backend selector: the durably persisted configuration and
the in memory client handle. An absent handle means local mode. -/
structure SelectorState where
  storedConfig : Option SupabaseConfig
  client : Option SupabaseConfig
  deriving DecidableEq

/-- Model of initSupabase. The configuration is persisted first; only then is
client construction attempted, with createOk as the oracle for whether
createClient throws. On a throw the function returns false and the handle
keeps its previous value, but the persisted configuration has already been
overwritten. -/
def initSupabase (createOk : SupabaseConfig → Bool) (st : SelectorState)
    (config : SupabaseConfig) : SelectorState × Bool :=
  let st1 : SelectorState := { st with storedConfig := some config }
  if createOk config then ({ st1 with client := some config }, true)
  else (st1, false)

/-- The starter catalog of seedInitialData, as written in the source. -/
def sampleItems : List Candidate :=
  [ { name := "Coffee", quantity := 50, unit := "cup", category := "Beverages",
      expiryDate := "2025-12-31", notes := none, imageUrl := none },
    { name := "Tea Bags", quantity := 100, unit := "pc", category := "Beverages",
      expiryDate := "2025-12-31", notes := none, imageUrl := none },
    { name := "Bottled Water", quantity := 75, unit := "bottle", category := "Beverages",
      expiryDate := "2026-01-31", notes := none, imageUrl := none },
    { name := "Orange Juice", quantity := 30, unit := "bottle", category := "Beverages",
      expiryDate := "2025-01-15", notes := none, imageUrl := none },
    { name := "Soft Drinks", quantity := 60, unit := "can", category := "Beverages",
      expiryDate := "2025-06-30", notes := none, imageUrl := none },
    { name := "Chocolate Bar", quantity := 40, unit := "pc", category := "Snacks",
      expiryDate := "2025-08-01", notes := none, imageUrl := none },
    { name := "Potato Chips", quantity := 35, unit := "pack", category := "Snacks",
      expiryDate := "2025-07-01", notes := none, imageUrl := none },
    { name := "Cookies", quantity := 45, unit := "pack", category := "Snacks",
      expiryDate := "2025-05-15", notes := none, imageUrl := none },
    { name := "Nuts Mix", quantity := 25, unit := "pack", category := "Snacks",
      expiryDate := "2025-09-01", notes := none, imageUrl := none },
    { name := "Energy Bar", quantity := 30, unit := "pc", category := "Snacks",
      expiryDate := "2025-10-01", notes := none, imageUrl := none },
    { name := "Sandwich", quantity := 20, unit := "pc", category := "Food",
      expiryDate := "2024-11-20", notes := none, imageUrl := none },
    { name := "Fruit Salad", quantity := 15, unit := "cup", category := "Food",
      expiryDate := "2024-11-20", notes := none, imageUrl := none },
    { name := "Instant Noodles", quantity := 40, unit := "cup", category := "Food",
      expiryDate := "2025-12-01", notes := none, imageUrl := none },
    { name := "Notepads", quantity := 50, unit := "pc", category := "Stationery",
      expiryDate := "2030-01-01", notes := none, imageUrl := none },
    { name := "Pens", quantity := 100, unit := "pc", category := "Stationery",
      expiryDate := "2030-01-01", notes := none, imageUrl := none },
    { name := "Phone Charger", quantity := 15, unit := "pc", category := "Electronics",
      expiryDate := "2030-01-01", notes := none, imageUrl := none },
    { name := "USB Cable", quantity := 20, unit := "pc", category := "Electronics",
      expiryDate := "2030-01-01", notes := none, imageUrl := none } ]

/-- A sequence of local addOrUpdateItem calls, each call carrying its
candidate together with the fresh identifier and timestamp drawn for it. -/
def runLocalAdds (items : List PantryItem)
    (calls : List (Candidate × String × String)) : List PantryItem :=
  calls.foldl (fun its p => (addOrUpdateItemLocal its p.1 p.2.1 p.2.2).items) items

/-- Local branch of seedInitialData: when the fetched collection is non empty
nothing happens, otherwise every sample item is added through
addOrUpdateItem. -/
def seedInitialDataLocal (items : List PantryItem) (freshId : Nat → String)
    (now : String) : List PantryItem :=
  if items.length > 0 then items
  else sampleItems.enum.foldl
    (fun its p => (addOrUpdateItemLocal its p.2 (freshId p.1) now).items) items

/-- Remote behavior of seedInitialData: the source guards only on the fetched
collection being non empty, so with an empty remote table every sample item
is inserted into the remote backend. -/
def seedInitialDataCloud (db : RemoteDB) (dbId : Nat → String) (now : String) :
    RemoteDB :=
  if (cloudGetItems db).length > 0 then db
  else sampleItems.enum.foldl
    (fun d p => (addOrUpdateItemCloud d p.2 now (dbId p.1) true).db) db

/-- Matching predicate for a fixed normalized name and unit pair. -/
def hasPair (nm un : String) (i : PantryItem) : Bool :=
  normalizeName i.name == nm && i.unit == un

/-- A sequence of remote addOrUpdateItem calls whose writes all succeed, each
call carrying its candidate together with the backend assigned row identifier
and the timestamp drawn for it. -/
def runCloudAdds (db : RemoteDB) (calls : List (Candidate × String × String)) :
    RemoteDB :=
  calls.foldl (fun d p => (addOrUpdateItemCloud d p.1 p.2.2 p.2.1 true).db) db

theorem leChars_total : ∀ as bs, leChars as bs = true ∨ leChars bs as = true
  | [], _ => Or.inl rfl
  | _ :: _, [] => Or.inr rfl
  | a :: as, b :: bs => by
    by_cases h : a.toNat = b.toNat
    · rcases leChars_total as bs with h2 | h2
      · exact Or.inl (by simp [leChars, h, h2])
      · exact Or.inr (by simp [leChars, h.symm, h2])
    · rcases Nat.le_total a.toNat b.toNat with hle | hle
      · exact Or.inl (by simp [leChars, h, hle])
      · exact Or.inr (by simp [leChars, Ne.symm h, hle])

theorem leChars_trans : ∀ as bs cs, leChars as bs = true → leChars bs cs = true →
    leChars as cs = true
  | [], _, _, _, _ => rfl
  | _ :: _, [], _, h1, _ => by simp [leChars] at h1
  | _ :: _, _ :: _, [], _, h2 => by simp [leChars] at h2
  | a :: as, b :: bs, c :: cs, h1, h2 => by
    by_cases hab : a.toNat = b.toNat <;> by_cases hbc : b.toNat = c.toNat
    · have hac : a.toNat = c.toNat := hab.trans hbc
      simp only [leChars, if_pos hab] at h1
      simp only [leChars, if_pos hbc] at h2
      simpa [leChars, hac] using leChars_trans as bs cs h1 h2
    · have hac : ¬ a.toNat = c.toNat := by rw [hab]; exact hbc
      simp only [leChars, if_neg hbc, decide_eq_true_eq] at h2
      simp only [leChars, if_neg hac, decide_eq_true_eq]
      omega
    · have hac : ¬ a.toNat = c.toNat := by rw [← hbc]; exact hab
      simp only [leChars, if_neg hab, decide_eq_true_eq] at h1
      simp only [leChars, if_neg hac, decide_eq_true_eq]
      omega
    · simp only [leChars, if_neg hab, decide_eq_true_eq] at h1
      simp only [leChars, if_neg hbc, decide_eq_true_eq] at h2
      by_cases hac : a.toNat = c.toNat
      · exact absurd (Nat.le_antisymm h1 (by omega)) hab
      · simp only [leChars, if_neg hac, decide_eq_true_eq]
        omega

instance : IsTotal PantryItem nameLe :=
  ⟨fun a b => leChars_total a.name.data b.name.data⟩

instance : IsTrans PantryItem nameLe :=
  ⟨fun a b c => leChars_trans a.name.data b.name.data c.name.data⟩

/-- C7 counterexample: in local mode the stored collection is returned as is,
and a catalog reachable by two addOrUpdateItem calls (which prepend) is not
sorted by name ascending, so getItems is not name sorted in every mode. -/
theorem claim7_counterexample :
    getItemsLocal ((addOrUpdateItemLocal
        (addOrUpdateItemLocal [] ⟨"Apple", 1, "pc", "Food", "", none, none⟩ "i1" "t1").items
        ⟨"Zebra Crackers", 2, "pack", "Snacks", "", none, none⟩ "i2" "t2").items) =
      (addOrUpdateItemLocal
        (addOrUpdateItemLocal [] ⟨"Apple", 1, "pc", "Food", "", none, none⟩ "i1" "t1").items
        ⟨"Zebra Crackers", 2, "pack", "Snacks", "", none, none⟩ "i2" "t2").items ∧
    ¬ List.Sorted nameLe (getItemsLocal ((addOrUpdateItemLocal
        (addOrUpdateItemLocal [] ⟨"Apple", 1, "pc", "Food", "", none, none⟩ "i1" "t1").items
        ⟨"Zebra Crackers", 2, "pack", "Snacks", "", none, none⟩ "i2" "t2").items)) := by
  exact ⟨rfl, by decide⟩

/-- C7 amended: in remote mode getItems returns the items table ordered by
name ascending, while in local mode getItems returns the stored collection in
its persisted order (most recently added first), with no sorting. -/
theorem claim7_amended (db : RemoteDB) (items : List PantryItem) :
    List.Sorted nameLe (cloudGetItems db) ∧ getItemsLocal items = items :=
  ⟨List.sorted_insertionSort nameLe db.items, rfl⟩

/-- C4: in remote mode, once the order row is inserted, the result of
placeOrder and the orders table are independent of the failure oracle of the
stock update writes: the order stays recorded and placeOrder returns
success for every pattern of stock update failures. -/
theorem claim4_best_effort_deduction (db : RemoteDB) (order : Order)
    (updFail : Nat → Bool)
    (hval : validateOrder (cloudGetItems db) order.items = none) :
    (placeOrderCloud db order true updFail).success = true ∧
    (placeOrderCloud db order true updFail).error = none ∧
    (placeOrderCloud db order true updFail).db.orders = db.orders ++ [orderRow order] ∧
    orderRow order ∈ (placeOrderCloud db order true updFail).db.orders := by
  simp [placeOrderCloud, hval]

/-- C4 witness: a concrete remote state where validation passes, the insert
succeeds and every stock update write fails. -/
theorem claim4_witness :
    (placeOrderCloud ⟨[⟨"a", "Tea", 5, "cup", "Food", "t0", "", none, none⟩], []⟩
      ⟨"o1", "101", [⟨"a", "Tea", 3, "cup"⟩], .pending, "t1", none⟩ true
      (fun _ => true)).success = true ∧
    (placeOrderCloud ⟨[⟨"a", "Tea", 5, "cup", "Food", "t0", "", none, none⟩], []⟩
      ⟨"o1", "101", [⟨"a", "Tea", 3, "cup"⟩], .pending, "t1", none⟩ true
      (fun _ => true)).db.orders =
      [] ++ [orderRow ⟨"o1", "101", [⟨"a", "Tea", 3, "cup"⟩], .pending, "t1", none⟩] := by
  have h := claim4_best_effort_deduction
    ⟨[⟨"a", "Tea", 5, "cup", "Food", "t0", "", none, none⟩], []⟩
    ⟨"o1", "101", [⟨"a", "Tea", 3, "cup"⟩], .pending, "t1", none⟩
    (fun _ => true) (by decide)
  exact ⟨h.1, h.2.2.1⟩

/-- C6 counterexample: starting from local mode with no persisted
configuration, a configure call whose client construction fails returns
failure but has already persisted the new configuration, so the prior durable
state is not left untouched. -/
theorem claim6_counterexample :
    (initSupabase (fun _ => false) ⟨none, none⟩ ⟨"u", "k"⟩).2 = false ∧
    (initSupabase (fun _ => false) ⟨none, none⟩ ⟨"u", "k"⟩).1.storedConfig ≠ none := by
  decide

/-- C6 amended: when client construction fails, configure returns failure and
leaves the in memory handle (and hence the active mode) unchanged, but the
durable configuration has already been overwritten with the new
endpoint and credential before construction was attempted. -/
theorem claim6_amended (createOk : SupabaseConfig → Bool) (st : SelectorState)
    (config : SupabaseConfig) (h : createOk config = false) :
    initSupabase createOk st config =
      ({ storedConfig := some config, client := st.client }, false) := by
  simp [initSupabase, h]

/-- C6 witness: a concrete failing configure call over an existing remote
configuration. -/
theorem claim6_witness :
    initSupabase (fun _ => false) ⟨some ⟨"old", "ok"⟩, some ⟨"old", "ok"⟩⟩ ⟨"new", "bad"⟩ =
      ({ storedConfig := some ⟨"new", "bad"⟩, client := some ⟨"old", "ok"⟩ }, false) :=
  claim6_amended (fun _ => false) ⟨some ⟨"old", "ok"⟩, some ⟨"old", "ok"⟩⟩ ⟨"new", "bad"⟩ rfl

/-- C9: the low stock query returns exactly the items whose quantity is
positive and at most the threshold, and the default threshold is 10. -/
theorem claim9_low_stock (items : List PantryItem) (threshold : Int) (i : PantryItem) :
    (i ∈ getLowStockItems items threshold ↔
      i ∈ items ∧ 0 < i.quantity ∧ i.quantity ≤ threshold) ∧
    getLowStockItemsDefault items = getLowStockItems items 10 := by
  refine ⟨?_, rfl⟩
  simp only [getLowStockItems, List.mem_filter, Bool.and_eq_true, decide_eq_true_eq,
    gt_iff_lt]
  tauto

/-- C10: addOrUpdateItem performs no validation: the local branch returns
success for every candidate, including a whitespace only name with zero
quantity, and merging a candidate with a negative quantity decreases the
stored quantity and can drive it below zero. -/
theorem claim10_no_validation :
    (∀ (items : List PantryItem) (c : Candidate) (freshId now : String),
      (addOrUpdateItemLocal items c freshId now).success = true) ∧
    (addOrUpdateItemLocal [] ⟨"   ", 0, "pc", categoryOther, "", none, none⟩
      "i1" "t1").success = true ∧
    ((addOrUpdateItemLocal [⟨"a", "Tea", 5, "cup", "Food", "t0", "", none, none⟩]
        ⟨"tea", -7, "cup", categoryOther, "", none, none⟩ "i2" "t2").items.map
        (fun i => i.quantity) = [-2] ∧ (-2 : Int) < 0 ∧ (-2 : Int) < 5) := by
  refine ⟨fun items c freshId now => ?_, by decide, by decide⟩
  rcases hf : items.find? (matchesCandidate c) with _ | ex <;>
    simp [addOrUpdateItemLocal, hf]

theorem matchesCandidate_eq_hasPair (c : Candidate) (nm un : String)
    (h1 : normalizeName c.name = nm) (h2 : c.unit = un) :
    matchesCandidate c = hasPair nm un := by
  funext i
  simp [matchesCandidate, hasPair, h1, h2]

theorem runLocalAdds_merge_inv (nm un : String) :
    ∀ (calls : List (Candidate × String × String)) (x : PantryItem)
      (rest : List PantryItem),
    hasPair nm un x = true →
    (∀ i ∈ rest, i.id ≠ x.id) →
    (∀ p ∈ calls, normalizeName p.1.name = nm ∧ p.1.unit = un) →
    ∃ x2, runLocalAdds (x :: rest) calls = x2 :: rest ∧ hasPair nm un x2 = true ∧
      x2.id = x.id ∧
      x2.quantity = x.quantity + (calls.map (fun p => p.1.quantity)).sum := by
  intro calls
  induction calls with
  | nil =>
    intro x rest hx _ _
    exact ⟨x, rfl, hx, rfl, by simp [runLocalAdds]⟩
  | cons p ps ih =>
    intro x rest hx hid hsame
    have hpair := hsame p (List.mem_cons_self p ps)
    have hm : matchesCandidate p.1 x = true := by
      rw [matchesCandidate_eq_hasPair p.1 nm un hpair.1 hpair.2]
      exact hx
    have hfind : (x :: rest).find? (matchesCandidate p.1) = some x :=
      List.find?_cons_of_pos _ hm
    have hstep : (addOrUpdateItemLocal (x :: rest) p.1 p.2.1 p.2.2).items
        = mergeLocal x p.1 :: rest := by
      simp only [addOrUpdateItemLocal, hfind, List.map_cons]
      congr 1
      · simp
      · have hmap : ∀ i ∈ rest,
            (if i.id == x.id then mergeLocal x p.1 else i) = id i := by
          intro i hi
          simp [hid i hi]
        rw [List.map_congr_left hmap, List.map_id]
    have hx1 : hasPair nm un (mergeLocal x p.1) = true := by
      simpa [hasPair, mergeLocal] using hx
    have hid1 : ∀ i ∈ rest, i.id ≠ (mergeLocal x p.1).id := by
      simpa [mergeLocal] using hid
    obtain ⟨x2, hrun, hp2, hid2, hq2⟩ := ih (mergeLocal x p.1) rest hx1 hid1
      (fun q hq => hsame q (List.mem_cons_of_mem p hq))
    refine ⟨x2, ?_, hp2, ?_, ?_⟩
    · have hcons : runLocalAdds (x :: rest) (p :: ps)
          = runLocalAdds (mergeLocal x p.1 :: rest) ps := by
        simp only [runLocalAdds, List.foldl_cons, hstep]
      rw [hcons, hrun]
    · rw [hid2]
      simp [mergeLocal]
    · rw [hq2]
      simp only [mergeLocal, List.map_cons, List.sum_cons]
      omega

theorem mem_cloudGetItems (db : RemoteDB) (i : PantryItem) :
    i ∈ cloudGetItems db ↔ i ∈ db.items := by
  rw [cloudGetItems]
  exact (List.perm_insertionSort nameLe db.items).mem_iff

theorem map_payload_id_of_ne (xs : List PantryItem) (x : PantryItem) (c : Candidate)
    (h : ∀ i ∈ xs, i.id ≠ x.id) :
    xs.map (fun row => if row.id = x.id then cloudApplyMergePayload x c row else row)
      = xs := by
  induction xs with
  | nil => rfl
  | cons a rest ih =>
    simp only [List.map_cons, if_neg (h a (List.mem_cons_self a rest))]
    rw [ih (fun q hq => h q (List.mem_cons_of_mem a hq))]

theorem runCloudAdds_merge_inv (nm un : String) :
    ∀ (calls : List (Candidate × String × String)) (pre post : List PantryItem)
      (x : PantryItem) (orders : List Order),
    hasPair nm un x = true →
    (∀ i ∈ pre, hasPair nm un i = false) →
    (∀ i ∈ post, hasPair nm un i = false) →
    (∀ i ∈ pre, i.id ≠ x.id) →
    (∀ i ∈ post, i.id ≠ x.id) →
    (∀ p ∈ calls, normalizeName p.1.name = nm ∧ p.1.unit = un) →
    ∃ x2, runCloudAdds ⟨pre ++ x :: post, orders⟩ calls = ⟨pre ++ x2 :: post, orders⟩ ∧
      hasPair nm un x2 = true ∧ x2.id = x.id ∧
      x2.quantity = x.quantity + (calls.map (fun p => p.1.quantity)).sum := by
  intro calls
  induction calls with
  | nil =>
    intro pre post x orders hx _ _ _ _ _
    exact ⟨x, rfl, hx, rfl, by simp [runCloudAdds]⟩
  | cons p ps ih =>
    intro pre post x orders hx hpre hpost hidpre hidpost hsame
    have hpair := hsame p (List.mem_cons_self p ps)
    have hxmem : x ∈ cloudGetItems ⟨pre ++ x :: post, orders⟩ :=
      (mem_cloudGetItems _ x).mpr (by simp)
    have hxp : matchesCandidate p.1 x = true := by
      rw [matchesCandidate_eq_hasPair p.1 nm un hpair.1 hpair.2]
      exact hx
    have hsome : ((cloudGetItems ⟨pre ++ x :: post, orders⟩).find?
        (matchesCandidate p.1)).isSome := by
      rw [List.find?_isSome]
      exact ⟨x, hxmem, hxp⟩
    obtain ⟨ex, hfind⟩ := Option.isSome_iff_exists.mp hsome
    have hexp : hasPair nm un ex = true := by
      have h2 := List.find?_some hfind
      rwa [matchesCandidate_eq_hasPair p.1 nm un hpair.1 hpair.2] at h2
    have hexmem : ex ∈ pre ++ x :: post :=
      (mem_cloudGetItems _ ex).mp (List.mem_of_find?_eq_some hfind)
    have hex : ex = x := by
      rcases List.mem_append.mp hexmem with hmem | hmem
      · exact absurd hexp (by simp [hpre ex hmem])
      · rcases List.mem_cons.mp hmem with h2 | hmem
        · exact h2
        · exact absurd hexp (by simp [hpost ex hmem])
    rw [hex] at hfind
    have hstep : (addOrUpdateItemCloud ⟨pre ++ x :: post, orders⟩ p.1 p.2.2 p.2.1
        true).db = ⟨pre ++ cloudApplyMergePayload x p.1 x :: post, orders⟩ := by
      simp [addOrUpdateItemCloud, hfind,
        map_payload_id_of_ne pre x p.1 hidpre, map_payload_id_of_ne post x p.1 hidpost]
    have hx1 : hasPair nm un (cloudApplyMergePayload x p.1 x) = true := by
      simpa [hasPair, cloudApplyMergePayload] using hx
    obtain ⟨x2, hrun, hp2, hid2, hq2⟩ := ih pre post (cloudApplyMergePayload x p.1 x)
      orders hx1 hpre hpost (by simpa [cloudApplyMergePayload] using hidpre)
      (by simpa [cloudApplyMergePayload] using hidpost)
      (fun q hq => hsame q (List.mem_cons_of_mem p hq))
    refine ⟨x2, ?_, hp2, ?_, ?_⟩
    · have hcons : runCloudAdds ⟨pre ++ x :: post, orders⟩ (p :: ps)
          = runCloudAdds ⟨pre ++ cloudApplyMergePayload x p.1 x :: post, orders⟩ ps := by
        simp only [runCloudAdds, List.foldl_cons, hstep]
      rw [hcons, hrun]
    · rw [hid2]
      rfl
    · rw [hq2]
      simp only [cloudApplyMergePayload, List.map_cons, List.sum_cons]
      omega

/-- C2: starting from a catalog with no item of a given normalized name and
unit pair, any non empty sequence of addOrUpdateItem calls whose candidates
all carry that pair (with fresh identifiers, as drawn from randomUUID locally
or assigned by the backend remotely) leaves exactly one item with that pair,
whose quantity is the sum of all submitted quantities, in local mode and in
remote mode alike. -/
theorem claim2_same_pair_adds_accumulate (nm un : String)
    (calls : List (Candidate × String × String)) (items0 dbItems0 : List PantryItem)
    (orders0 : List Order)
    (hne : calls ≠ [])
    (hsame : ∀ p ∈ calls, normalizeName p.1.name = nm ∧ p.1.unit = un)
    (h0 : ∀ i ∈ items0, hasPair nm un i = false)
    (hfresh : ∀ p ∈ calls, ∀ i ∈ items0, p.2.1 ≠ i.id)
    (h0c : ∀ i ∈ dbItems0, hasPair nm un i = false)
    (hfreshc : ∀ p ∈ calls, ∀ i ∈ dbItems0, p.2.1 ≠ i.id) :
    ((runLocalAdds items0 calls).filter (hasPair nm un)).map (fun i => i.quantity) =
      [(calls.map (fun p => p.1.quantity)).sum] ∧
    ((runCloudAdds ⟨dbItems0, orders0⟩ calls).items.filter (hasPair nm un)).map
      (fun i => i.quantity) = [(calls.map (fun p => p.1.quantity)).sum] := by
  cases calls with
  | nil => exact absurd rfl hne
  | cons p ps =>
    constructor
    · have hpair := hsame p (List.mem_cons_self p ps)
      have hfind : items0.find? (matchesCandidate p.1) = none := by
        rw [matchesCandidate_eq_hasPair p.1 nm un hpair.1 hpair.2]
        exact List.find?_eq_none.mpr (fun i hi => by simp [h0 i hi])
      have hstep : (addOrUpdateItemLocal items0 p.1 p.2.1 p.2.2).items
          = newItemFrom p.1 p.2.1 p.2.2 :: items0 := by
        simp only [addOrUpdateItemLocal, hfind]
      have hxpair : hasPair nm un (newItemFrom p.1 p.2.1 p.2.2) = true := by
        simp [hasPair, newItemFrom, hpair.1, hpair.2]
      have hxid : ∀ i ∈ items0, i.id ≠ (newItemFrom p.1 p.2.1 p.2.2).id := by
        intro i hi
        simpa [newItemFrom] using (hfresh p (List.mem_cons_self p ps) i hi).symm
      obtain ⟨x2, hrun, hp2, _, hq2⟩ := runLocalAdds_merge_inv nm un ps
        (newItemFrom p.1 p.2.1 p.2.2) items0 hxpair hxid
        (fun q hq => hsame q (List.mem_cons_of_mem p hq))
      have hall : runLocalAdds items0 (p :: ps) = x2 :: items0 := by
        have h1 : runLocalAdds items0 (p :: ps)
            = runLocalAdds (newItemFrom p.1 p.2.1 p.2.2 :: items0) ps := by
          simp only [runLocalAdds, List.foldl_cons, hstep]
        rw [h1, hrun]
      have hfilter : items0.filter (hasPair nm un) = [] :=
        List.filter_eq_nil_iff.mpr (fun i hi => by simp [h0 i hi])
      rw [hall]
      simp only [List.filter_cons, hp2, if_pos trivial, hfilter, List.map_cons,
        List.map_nil, hq2, newItemFrom, List.sum_cons]
    · have hpair := hsame p (List.mem_cons_self p ps)
      have hfindc : (cloudGetItems ⟨dbItems0, orders0⟩).find? (matchesCandidate p.1)
          = none := by
        rw [matchesCandidate_eq_hasPair p.1 nm un hpair.1 hpair.2]
        refine List.find?_eq_none.mpr ?_
        intro i hi
        simp [h0c i ((mem_cloudGetItems _ i).mp hi)]
      have hstep0 : (addOrUpdateItemCloud ⟨dbItems0, orders0⟩ p.1 p.2.2 p.2.1
          true).db = ⟨dbItems0 ++ newCloudRow p.1 p.2.1 p.2.2 :: [], orders0⟩ := by
        simp [addOrUpdateItemCloud, hfindc]
      have hxpair : hasPair nm un (newCloudRow p.1 p.2.1 p.2.2) = true := by
        simp [hasPair, newCloudRow, hpair.1, hpair.2]
      have hxid : ∀ i ∈ dbItems0, i.id ≠ (newCloudRow p.1 p.2.1 p.2.2).id := by
        intro i hi
        simpa [newCloudRow] using (hfreshc p (List.mem_cons_self p ps) i hi).symm
      obtain ⟨x2, hrun, hp2, _, hq2⟩ := runCloudAdds_merge_inv nm un ps dbItems0 []
        (newCloudRow p.1 p.2.1 p.2.2) orders0 hxpair h0c (by simp) hxid (by simp)
        (fun q hq => hsame q (List.mem_cons_of_mem p hq))
      have hall : runCloudAdds ⟨dbItems0, orders0⟩ (p :: ps)
          = ⟨dbItems0 ++ x2 :: [], orders0⟩ := by
        have h1 : runCloudAdds ⟨dbItems0, orders0⟩ (p :: ps)
            = runCloudAdds ⟨dbItems0 ++ newCloudRow p.1 p.2.1 p.2.2 :: [], orders0⟩
              ps := by
          simp only [runCloudAdds, List.foldl_cons, hstep0]
        rw [h1, hrun]
      have hfilter : dbItems0.filter (hasPair nm un) = [] :=
        List.filter_eq_nil_iff.mpr (fun i hi => by simp [h0c i hi])
      rw [hall]
      simp only [List.filter_append, hfilter, List.filter_cons, hp2, if_pos trivial,
        List.filter_nil, List.nil_append, List.map_cons, List.map_nil, hq2,
        newCloudRow, List.sum_cons]

/-- C2 witness: two concrete calls sharing the normalized pair tea and cup,
starting from the empty local catalog and the empty remote table, accumulate
quantity 2 + 3 in both modes. -/
theorem claim2_witness :
    ((runLocalAdds [] [(⟨"Tea", 2, "cup", categoryOther, "", none, none⟩, "id1", "t1"),
        (⟨" tea ", 3, "cup", "Food", "2025-01-01", none, none⟩, "id2", "t2")]).filter
        (hasPair "tea" "cup")).map (fun i => i.quantity) = [5] ∧
    ((runCloudAdds ⟨[], []⟩
        [(⟨"Tea", 2, "cup", categoryOther, "", none, none⟩, "id1", "t1"),
          (⟨" tea ", 3, "cup", "Food", "2025-01-01", none, none⟩, "id2",
            "t2")]).items.filter
        (hasPair "tea" "cup")).map (fun i => i.quantity) = [5] := by
  have h := claim2_same_pair_adds_accumulate "tea" "cup"
    [(⟨"Tea", 2, "cup", categoryOther, "", none, none⟩, "id1", "t1"),
      (⟨" tea ", 3, "cup", "Food", "2025-01-01", none, none⟩, "id2", "t2")] [] [] []
    (by simp) (by decide) (by simp) (by simp) (by simp) (by simp)
  simpa using h

theorem find?_deductFirst_of_ne (xs : List PantryItem) (l0 : OrderItem) (lid : String)
    (h : lid ≠ l0.itemId) :
    (deductFirst xs l0).find? (fun i => i.id == lid) = xs.find? (fun i => i.id == lid) := by
  induction xs with
  | nil => rfl
  | cons x rest ih =>
    cases hx : x.id == l0.itemId with
    | true =>
      have hxid : x.id = l0.itemId := by simpa using hx
      have hne1 : (x.id == lid) = false := by
        simp only [beq_eq_false_iff_ne, ne_eq, hxid]
        exact fun h2 => h h2.symm
      simp [deductFirst, hx, List.find?, hne1]
    | false =>
      simp only [deductFirst, hx, Bool.false_eq_true, if_false]
      cases hy : x.id == lid <;> simp [List.find?, hy, ih]

theorem validateOrder_deductFirst (lines : List OrderItem) (xs : List PantryItem)
    (l0 : OrderItem) (h : ∀ l ∈ lines, l.itemId ≠ l0.itemId) :
    validateOrder (deductFirst xs l0) lines = validateOrder xs lines := by
  induction lines with
  | nil => rfl
  | cons l rest ih =>
    have hfind := find?_deductFirst_of_ne xs l0 l.itemId (h l (List.mem_cons_self l rest))
    cases hf : xs.find? (fun i => i.id == l.itemId) with
    | none => simp [validateOrder, hfind, hf]
    | some item =>
      by_cases hlt : item.quantity < l.quantity
      · simp [validateOrder, hfind, hf, hlt]
      · simp [validateOrder, hfind, hf, hlt,
          ih (fun q hq => h q (List.mem_cons_of_mem l hq))]

theorem forall2_untouched_refl (xs : List PantryItem) :
    List.Forall₂ (fun a b => b = a ∨ 0 ≤ b.quantity) xs xs :=
  List.forall₂_same.mpr (fun _ _ => Or.inl rfl)

theorem forall2_quantity_trans {xs ys zs : List PantryItem}
    (h1 : List.Forall₂ (fun a b => b = a ∨ 0 ≤ b.quantity) xs ys)
    (h2 : List.Forall₂ (fun a b => b = a ∨ 0 ≤ b.quantity) ys zs) :
    List.Forall₂ (fun a b => b = a ∨ 0 ≤ b.quantity) xs zs := by
  induction h1 generalizing zs with
  | nil =>
    cases h2
    exact List.Forall₂.nil
  | cons hab htail ih =>
    cases h2 with
    | cons hbc h2t =>
      refine List.Forall₂.cons ?_ (ih h2t)
      rcases hbc with rfl | hq
      · exact hab
      · exact Or.inr hq

theorem deductFirst_forall2 (xs : List PantryItem) (l : OrderItem)
    (h : ∀ i, xs.find? (fun i2 => i2.id == l.itemId) = some i → l.quantity ≤ i.quantity) :
    List.Forall₂ (fun a b => b = a ∨ 0 ≤ b.quantity) xs (deductFirst xs l) := by
  induction xs with
  | nil => exact List.Forall₂.nil
  | cons x rest ih =>
    cases hx : x.id == l.itemId with
    | true =>
      have hq : l.quantity ≤ x.quantity := h x (by simp [List.find?, hx])
      have hd : deductFirst (x :: rest) l
          = { x with quantity := x.quantity - l.quantity } :: rest := by
        simp [deductFirst, hx]
      rw [hd]
      refine List.Forall₂.cons (Or.inr ?_) (forall2_untouched_refl rest)
      simp only
      omega
    | false =>
      have hd : deductFirst (x :: rest) l = x :: deductFirst rest l := by
        simp [deductFirst, hx]
      rw [hd]
      refine List.Forall₂.cons (Or.inl rfl) (ih ?_)
      intro i hi
      exact h i (by simp [List.find?, hx, hi])

theorem deductAll_forall2 (lines : List OrderItem) (xs : List PantryItem)
    (hnodup : (lines.map (fun l => l.itemId)).Nodup)
    (hval : validateOrder xs lines = none) :
    List.Forall₂ (fun a b => b = a ∨ 0 ≤ b.quantity) xs (deductAll xs lines) := by
  induction lines generalizing xs with
  | nil => exact forall2_untouched_refl xs
  | cons l rest ih =>
    cases hf : xs.find? (fun i => i.id == l.itemId) with
    | none => simp [validateOrder, hf] at hval
    | some item =>
      by_cases hlt : item.quantity < l.quantity
      · simp [validateOrder, hf, hlt] at hval
      · have hval2 : validateOrder xs rest = none := by
          simpa [validateOrder, hf, hlt] using hval
        simp only [List.map_cons, List.nodup_cons] at hnodup
        obtain ⟨hnotin, hnd⟩ := hnodup
        have hne : ∀ q ∈ rest, q.itemId ≠ l.itemId := by
          intro q hq hEq
          exact hnotin (hEq ▸ List.mem_map_of_mem (fun r => r.itemId) hq)
        have hstep : List.Forall₂ (fun a b => b = a ∨ 0 ≤ b.quantity) xs
            (deductFirst xs l) := by
          refine deductFirst_forall2 xs l ?_
          intro i hi
          rw [hf] at hi
          injection hi with h2
          subst h2
          omega
        have hval3 : validateOrder (deductFirst xs l) rest = none := by
          rw [validateOrder_deductFirst rest xs l hne]
          exact hval2
        have htail := ih (deductFirst xs l) hnd hval3
        have hda : deductAll xs (l :: rest) = deductAll (deductFirst xs l) rest := by
          simp [deductAll, List.foldl_cons]
        rw [hda]
        exact forall2_quantity_trans hstep htail

theorem validateOrder_le_of_none (xs : List PantryItem) (lines : List OrderItem)
    (hval : validateOrder xs lines = none) :
    ∀ l ∈ lines, ∀ i, xs.find? (fun j => j.id == l.itemId) = some i →
      l.quantity ≤ i.quantity := by
  induction lines with
  | nil =>
    intro l hl
    exact absurd hl (List.not_mem_nil l)
  | cons l0 rest ih =>
    intro l hl i hfind
    cases hf : xs.find? (fun j => j.id == l0.itemId) with
    | none => simp [validateOrder, hf] at hval
    | some item =>
      by_cases hlt : item.quantity < l0.quantity
      · simp [validateOrder, hf, hlt] at hval
      · have hval2 : validateOrder xs rest = none := by
          simpa [validateOrder, hf, hlt] using hval
        rcases List.mem_cons.mp hl with h2 | hl2
        · subst h2
          rw [hf] at hfind
          injection hfind with h3
          subst h3
          omega
        · exact ih hval2 l hl2 i hfind

theorem cloudUpdateQuantity_forall2 (rows : List PantryItem) (rowId : String)
    (q : Int) (hq : 0 ≤ q) :
    List.Forall₂ (fun a b => b = a ∨ 0 ≤ b.quantity) rows
      (cloudUpdateQuantity rows rowId q) := by
  induction rows with
  | nil => exact List.Forall₂.nil
  | cons r rest ih =>
    simp only [cloudUpdateQuantity, List.map_cons]
    refine List.Forall₂.cons ?_ ih
    by_cases h : (r.id == rowId) = true
    · rw [if_pos h]
      exact Or.inr hq
    · rw [if_neg h]
      exact Or.inl rfl

theorem cloudDeduct_forall2 (fetched : List PantryItem) :
    ∀ (lines : List OrderItem) (updFail : Nat → Bool) (rows : List PantryItem),
    (∀ l ∈ lines, ∀ i, fetched.find? (fun j => j.id == l.itemId) = some i →
      l.quantity ≤ i.quantity) →
    List.Forall₂ (fun a b => b = a ∨ 0 ≤ b.quantity) rows
      (cloudDeduct fetched lines updFail rows) := by
  intro lines
  induction lines with
  | nil =>
    intro updFail rows _
    exact forall2_untouched_refl rows
  | cons l rest ih =>
    intro updFail rows h
    have hunfold : cloudDeduct fetched (l :: rest) updFail rows
        = cloudDeduct fetched rest (fun n => updFail (n + 1))
          (match fetched.find? (fun i => i.id == l.itemId) with
            | some item =>
              if updFail 0 then rows
              else cloudUpdateQuantity rows item.id (item.quantity - l.quantity)
            | none => rows) := rfl
    have hstep : List.Forall₂ (fun a b => b = a ∨ 0 ≤ b.quantity) rows
        (match fetched.find? (fun i => i.id == l.itemId) with
          | some item =>
            if updFail 0 then rows
            else cloudUpdateQuantity rows item.id (item.quantity - l.quantity)
          | none => rows) := by
      cases hf : fetched.find? (fun i => i.id == l.itemId) with
      | none => exact forall2_untouched_refl rows
      | some item =>
        by_cases hu : updFail 0 = true
        · simp only [if_pos hu]
          exact forall2_untouched_refl rows
        · simp only [if_neg hu]
          have hle := h l (List.mem_cons_self l rest) item hf
          exact cloudUpdateQuantity_forall2 rows item.id (item.quantity - l.quantity)
            (by omega)
    rw [hunfold]
    exact forall2_quantity_trans hstep
      (ih (fun n => updFail (n + 1)) _
        (fun l2 hl2 i hi => h l2 (List.mem_cons_of_mem l hl2) i hi))

/-- C1 counterexample: an order with two line items referencing the same
catalog item passes validation (each line is checked against the same
pre deduction stock of 5), the order is recorded with success, and the stock
is driven to minus one, below zero. -/
theorem claim1_counterexample :
    (placeOrderLocal [⟨"a", "Tea", 5, "cup", "Food", "t0", "", none, none⟩] []
      ⟨"o1", "101", [⟨"a", "Tea", 3, "cup"⟩, ⟨"a", "Tea", 3, "cup"⟩], .pending,
        "t1", none⟩).success = true ∧
    (placeOrderLocal [⟨"a", "Tea", 5, "cup", "Food", "t0", "", none, none⟩] []
      ⟨"o1", "101", [⟨"a", "Tea", 3, "cup"⟩, ⟨"a", "Tea", 3, "cup"⟩], .pending,
        "t1", none⟩).items.map (fun i => i.quantity) = [-1] ∧
    (-1 : Int) < 0 := by
  decide

/-- C1 amended: if any line references a missing item or requests more than
the current stock, placeOrder fails and leaves both collections unchanged in
both modes; when validation passes and the line items of the order reference
pairwise distinct item identifiers, the local branch records the order and
leaves every catalog item either untouched or with a non negative quantity;
and when validation passes the remote branch with a successful order insert
leaves every row of the remote items table either untouched or with a non
negative quantity, for every pattern of stock update failures, since each
write stores an absolute quantity computed from the validated fetched
snapshot. With duplicate line items for the same catalog item, local
validation checks every line against the same pre deduction stock and the
sequential deduction loop can drive the quantity below zero. -/
theorem claim1_amended (items : List PantryItem) (orders : List Order) (order : Order)
    (db : RemoteDB) (insertOk : Bool) (updFail : Nat → Bool) :
    (validateOrder items order.items ≠ none →
      placeOrderLocal items orders order =
        { items := items, orders := orders, success := false,
          error := validateOrder items order.items }) ∧
    (validateOrder (cloudGetItems db) order.items ≠ none →
      placeOrderCloud db order insertOk updFail =
        { db := db, success := false,
          error := validateOrder (cloudGetItems db) order.items }) ∧
    ((order.items.map (fun l => l.itemId)).Nodup →
      validateOrder items order.items = none →
      (placeOrderLocal items orders order).success = true ∧
      (placeOrderLocal items orders order).error = none ∧
      (placeOrderLocal items orders order).orders = order :: orders ∧
      List.Forall₂ (fun a b => b = a ∨ 0 ≤ b.quantity) items
        (placeOrderLocal items orders order).items) ∧
    (validateOrder (cloudGetItems db) order.items = none →
      (placeOrderCloud db order true updFail).success = true ∧
      List.Forall₂ (fun a b => b = a ∨ 0 ≤ b.quantity) db.items
        (placeOrderCloud db order true updFail).db.items) := by
  refine ⟨?_, ?_, ?_, ?_⟩
  · intro h
    cases hv : validateOrder items order.items with
    | none => exact absurd hv h
    | some e => simp [placeOrderLocal, hv]
  · intro h
    cases hv : validateOrder (cloudGetItems db) order.items with
    | none => exact absurd hv h
    | some e => simp [placeOrderCloud, hv]
  · intro hnodup hval
    refine ⟨by simp [placeOrderLocal, hval], by simp [placeOrderLocal, hval],
      by simp [placeOrderLocal, hval], ?_⟩
    have hfa := deductAll_forall2 order.items items hnodup hval
    simpa [placeOrderLocal, hval] using hfa
  · intro hval
    have hfa := cloudDeduct_forall2 (cloudGetItems db) order.items updFail db.items
      (validateOrder_le_of_none (cloudGetItems db) order.items hval)
    exact ⟨by simp [placeOrderCloud, hval], by simpa [placeOrderCloud, hval] using hfa⟩

/-- C1 witness: a concrete rejected order leaving the state unchanged, a
concrete accepted local order with distinct line references whose deduction
leaves the stock non negative, and a concrete accepted remote order whose
failing stock update writes leave every row untouched or non negative. -/
theorem claim1_witness :
    (placeOrderLocal [⟨"a", "Tea", 5, "cup", "Food", "t0", "", none, none⟩] []
      ⟨"o1", "101", [⟨"a", "Tea", 9, "cup"⟩], .pending, "t1", none⟩ =
      { items := [⟨"a", "Tea", 5, "cup", "Food", "t0", "", none, none⟩], orders := [],
        success := false,
        error := validateOrder [⟨"a", "Tea", 5, "cup", "Food", "t0", "", none, none⟩]
          [⟨"a", "Tea", 9, "cup"⟩] }) ∧
    (placeOrderLocal [⟨"b", "Water", 5, "bottle", "Beverages", "t0", "", none, none⟩] []
      ⟨"o2", "102", [⟨"b", "Water", 3, "bottle"⟩], .pending, "t1", none⟩).success = true ∧
    List.Forall₂ (fun a b => b = a ∨ 0 ≤ b.quantity)
      [⟨"b", "Water", 5, "bottle", "Beverages", "t0", "", none, none⟩]
      (placeOrderLocal [⟨"b", "Water", 5, "bottle", "Beverages", "t0", "", none, none⟩] []
        ⟨"o2", "102", [⟨"b", "Water", 3, "bottle"⟩], .pending, "t1", none⟩).items ∧
    (placeOrderCloud ⟨[⟨"c", "Juice", 5, "bottle", "Beverages", "t0", "", none, none⟩],
      []⟩ ⟨"o3", "103", [⟨"c", "Juice", 3, "bottle"⟩], .pending, "t1", none⟩ true
      (fun _ => true)).success = true ∧
    List.Forall₂ (fun a b => b = a ∨ 0 ≤ b.quantity)
      [⟨"c", "Juice", 5, "bottle", "Beverages", "t0", "", none, none⟩]
      (placeOrderCloud ⟨[⟨"c", "Juice", 5, "bottle", "Beverages", "t0", "", none,
        none⟩], []⟩ ⟨"o3", "103", [⟨"c", "Juice", 3, "bottle"⟩], .pending, "t1",
        none⟩ true (fun _ => true)).db.items := by
  have h1 := (claim1_amended [⟨"a", "Tea", 5, "cup", "Food", "t0", "", none, none⟩] []
    ⟨"o1", "101", [⟨"a", "Tea", 9, "cup"⟩], .pending, "t1", none⟩
    ⟨[], []⟩ true (fun _ => false)).1 (by decide)
  have h2 := (claim1_amended [⟨"b", "Water", 5, "bottle", "Beverages", "t0", "", none, none⟩] []
    ⟨"o2", "102", [⟨"b", "Water", 3, "bottle"⟩], .pending, "t1", none⟩
    ⟨[], []⟩ true (fun _ => false)).2.2.1 (by decide) (by decide)
  have h3 := (claim1_amended [] []
    ⟨"o3", "103", [⟨"c", "Juice", 3, "bottle"⟩], .pending, "t1", none⟩
    ⟨[⟨"c", "Juice", 5, "bottle", "Beverages", "t0", "", none, none⟩], []⟩ true
    (fun _ => true)).2.2.2 (by decide)
  exact ⟨h1, h2.1, h2.2.2.2, h3.1, h3.2⟩

theorem updateFirstOrder_not_found (orders : List Order) (oid : String)
    (st : OrderStatus) (ca : Option String) (h : ∀ o ∈ orders, o.id ≠ oid) :
    updateFirstOrder orders oid st ca = orders := by
  induction orders with
  | nil => rfl
  | cons o rest ih =>
    have ho : (o.id == oid) = false :=
      beq_eq_false_iff_ne.mpr (h o (List.mem_cons_self o rest))
    simp only [updateFirstOrder, ho, Bool.false_eq_true, if_false, List.cons.injEq,
      true_and]
    exact ih (fun q hq => h q (List.mem_cons_of_mem o hq))

theorem updateFirstOrder_found (pre post : List Order) (o : Order) (oid : String)
    (st : OrderStatus) (ca : Option String)
    (hpre : ∀ p ∈ pre, p.id ≠ oid) (ho : o.id = oid) :
    updateFirstOrder (pre ++ o :: post) oid st ca =
      pre ++ { o with
        status := st,
        completedAt := match ca with
          | some t => some t
          | none => o.completedAt } :: post := by
  induction pre with
  | nil =>
    have hb : (o.id == oid) = true := beq_iff_eq.mpr ho
    simp [updateFirstOrder, hb]
  | cons p pre ih =>
    have hp : (p.id == oid) = false :=
      beq_eq_false_iff_ne.mpr (hpre p (List.mem_cons_self p pre))
    simp only [List.cons_append, updateFirstOrder, hp, Bool.false_eq_true, if_false,
      List.cons.injEq, true_and]
    exact ih (fun q hq => hpre q (List.mem_cons_of_mem p hq))

/-- C5 counterexample: an order transitioned to delivered and then back to
preparing keeps its stale completion time in local mode, so after this
sequence an order with status preparing has completedAt present, refuting the
claimed consequence. -/
theorem claim5_counterexample :
    (updateOrderStatusLocal
      (updateOrderStatusLocal [⟨"o1", "101", [⟨"a", "Tea", 1, "cup"⟩], .pending,
        "t0", none⟩] "o1" .delivered "t1") "o1" .preparing "t2").map
      (fun x => (x.status, x.completedAt)) = [(.preparing, some "t1")] := by
  decide

/-- C5 amended: updateOrderStatus sets completedAt to the current time
exactly when the new status is delivered or cancelled; with a non terminal
status the local branch leaves the previous completedAt value in place (so a
stale completion time survives a terminal to non terminal sequence) while the
remote branch overwrites it with null; a missing id is a no op on the local
collection. -/
theorem claim5_amended (orders : List Order) (oid : String) (st : OrderStatus)
    (now : String) :
    ((∀ o ∈ orders, o.id ≠ oid) → updateOrderStatusLocal orders oid st now = orders) ∧
    (∀ (pre post : List Order) (o : Order), orders = pre ++ o :: post →
      (∀ p ∈ pre, p.id ≠ oid) → o.id = oid →
      updateOrderStatusLocal orders oid st now =
        pre ++ { o with
          status := st,
          completedAt := if isTerminal st then some now else o.completedAt } :: post) ∧
    (∀ (db : RemoteDB), ∀ o2 ∈ (updateOrderStatusCloud db oid st now true).orders,
      o2.id = oid →
      o2.status = st ∧ o2.completedAt = (if isTerminal st then some now else none)) := by
  refine ⟨?_, ?_, ?_⟩
  · intro h
    exact updateFirstOrder_not_found orders oid st _ h
  · intro pre post o hsplit hpre ho
    subst hsplit
    rw [updateOrderStatusLocal, updateFirstOrder_found pre post o oid st _ hpre ho]
    cases hterm : isTerminal st <;> simp [hterm]
  · intro db o2 hmem ho2
    simp only [updateOrderStatusCloud, if_pos, List.mem_map] at hmem
    obtain ⟨o, _, rfl⟩ := hmem
    cases hb : o.id == oid with
    | true => simp [hb]
    | false =>
      rw [hb] at ho2
      simp only [Bool.false_eq_true, if_false] at ho2
      exact absurd ho2 (beq_eq_false_iff_ne.mp hb)

/-- C5 witness: concrete instances of the no op case, the found case with a
non terminal status over a stale completion time, and the remote overwrite
case. -/
theorem claim5_witness :
    (updateOrderStatusLocal [⟨"zz", "101", [], .pending, "t0", none⟩] "o1"
      .delivered "t1" = [⟨"zz", "101", [], .pending, "t0", none⟩]) ∧
    (updateOrderStatusLocal [⟨"o1", "101", [], .delivered, "t0", some "t0"⟩] "o1"
      .preparing "t2" =
      [] ++ { (⟨"o1", "101", [], .delivered, "t0", some "t0"⟩ : Order) with
        status := .preparing,
        completedAt := if isTerminal .preparing then some "t2"
          else (some "t0" : Option String) } :: []) ∧
    ((⟨"o1", "101", [], .preparing, "t0", none⟩ : Order).status = .preparing ∧
      (⟨"o1", "101", [], .preparing, "t0", none⟩ : Order).completedAt =
        (if isTerminal .preparing then some "t2" else none)) := by
  refine ⟨(claim5_amended [⟨"zz", "101", [], .pending, "t0", none⟩] "o1" .delivered
      "t1").1 (by decide), ?_, ?_⟩
  · exact (claim5_amended [⟨"o1", "101", [], .delivered, "t0", some "t0"⟩] "o1"
      .preparing "t2").2.1 [] [] ⟨"o1", "101", [], .delivered, "t0", some "t0"⟩
      rfl (by simp) rfl
  · exact (claim5_amended [] "o1" .preparing "t2").2.2
      ⟨[], [⟨"o1", "101", [], .pending, "t0", none⟩]⟩
      ⟨"o1", "101", [], .preparing, "t0", none⟩ (by decide) rfl

/-- C3 counterexample: a remote merge with a candidate that supplies no
expiry date (the empty string is the falsy absent value) still overwrites the
stored expiry date, clearing 2025-01-01 to the empty value, so the remote
branch does not overwrite expiryDate only when the candidate supplies one. -/
theorem claim3_counterexample :
    (addOrUpdateItemCloud ⟨[⟨"a", "Tea", 2, "cup", "Food", "t0", "2025-01-01",
      none, none⟩], []⟩ ⟨"tea", 1, "cup", categoryOther, "", none, none⟩
      "t1" "n1" true).success = true ∧
    (addOrUpdateItemCloud ⟨[⟨"a", "Tea", 2, "cup", "Food", "t0", "2025-01-01",
      none, none⟩], []⟩ ⟨"tea", 1, "cup", categoryOther, "", none, none⟩
      "t1" "n1" true).db.items.map (fun i => i.expiryDate) = [""] := by
  decide

/-- C3 amended: both merge branches add the candidate quantity to the
existing quantity, overwrite category only when the candidate category is not
the default, keep id, name and addedDate unchanged, and return a restocked
message; the local branch overwrites expiryDate only when the candidate
supplies one, while the remote branch writes the candidate expiryDate
unconditionally (clearing it when absent). Without a match, the local branch
prepends a fresh item built from the candidate and returns an added new
message, while the remote branch inserts a row whose identifier is assigned
by the backend. -/
theorem claim3_amended (items : List PantryItem) (db : RemoteDB) (ex : PantryItem)
    (c : Candidate) (freshId now dbId : String) :
    ((mergeLocal ex c).quantity = ex.quantity + c.quantity ∧
      (mergeLocal ex c).category =
        (if c.category ≠ categoryOther then c.category else ex.category) ∧
      (mergeLocal ex c).expiryDate =
        (if c.expiryDate ≠ "" then c.expiryDate else ex.expiryDate) ∧
      (mergeLocal ex c).id = ex.id ∧ (mergeLocal ex c).name = ex.name ∧
      (mergeLocal ex c).addedDate = ex.addedDate) ∧
    (∀ row : PantryItem,
      (cloudApplyMergePayload ex c row).quantity = ex.quantity + c.quantity ∧
      (cloudApplyMergePayload ex c row).category =
        (if c.category ≠ categoryOther then c.category else ex.category) ∧
      (cloudApplyMergePayload ex c row).expiryDate = c.expiryDate ∧
      (cloudApplyMergePayload ex c row).id = row.id ∧
      (cloudApplyMergePayload ex c row).name = row.name ∧
      (cloudApplyMergePayload ex c row).addedDate = row.addedDate) ∧
    (items.find? (matchesCandidate c) = some ex →
      addOrUpdateItemLocal items c freshId now =
        { items := items.map (fun i => if i.id == ex.id then mergeLocal ex c else i),
          success := true, message := "Restocked " ++ ex.name }) ∧
    (items.find? (matchesCandidate c) = none →
      addOrUpdateItemLocal items c freshId now =
        { items := newItemFrom c freshId now :: items, success := true,
          message := "Added new item: " ++ c.name }) ∧
    ((cloudGetItems db).find? (matchesCandidate c) = some ex →
      addOrUpdateItemCloud db c now dbId true =
        { db := { db with items := db.items.map (fun row =>
              if row.id == ex.id then cloudApplyMergePayload ex c row else row) },
          success := true, message := "Restocked " ++ ex.name }) ∧
    ((cloudGetItems db).find? (matchesCandidate c) = none →
      addOrUpdateItemCloud db c now dbId true =
        { db := { db with items := db.items ++ [newCloudRow c dbId now] },
          success := true, message := "Added " ++ c.name }) := by
  refine ⟨⟨rfl, rfl, rfl, rfl, rfl, rfl⟩,
    fun row => ⟨rfl, rfl, rfl, rfl, rfl, rfl⟩, ?_, ?_, ?_, ?_⟩
  · intro h
    simp [addOrUpdateItemLocal, h]
  · intro h
    simp [addOrUpdateItemLocal, h]
  · intro h
    simp [addOrUpdateItemCloud, h]
  · intro h
    simp [addOrUpdateItemCloud, h]

/-- C3 witness: concrete instances of all four branches of addOrUpdateItem,
merging tea into Tea locally and remotely and creating the item from the
empty catalog locally and remotely. -/
theorem claim3_witness :
    (addOrUpdateItemLocal [⟨"a", "Tea", 2, "cup", "Food", "t0", "2025-01-01", none,
      none⟩] ⟨"tea", 1, "cup", categoryOther, "", none, none⟩ "f1" "tn" =
      { items := [⟨"a", "Tea", 2, "cup", "Food", "t0", "2025-01-01", none,
          none⟩].map (fun i => if i.id == (⟨"a", "Tea", 2, "cup", "Food", "t0",
            "2025-01-01", none, none⟩ : PantryItem).id then
          mergeLocal ⟨"a", "Tea", 2, "cup", "Food", "t0", "2025-01-01", none, none⟩
            ⟨"tea", 1, "cup", categoryOther, "", none, none⟩ else i),
        success := true, message := "Restocked " ++ "Tea" }) ∧
    (addOrUpdateItemLocal [] ⟨"tea", 1, "cup", categoryOther, "", none, none⟩
      "f1" "tn" =
      { items := [newItemFrom ⟨"tea", 1, "cup", categoryOther, "", none, none⟩
          "f1" "tn"], success := true, message := "Added new item: " ++ "tea" }) ∧
    (addOrUpdateItemCloud ⟨[⟨"a", "Tea", 2, "cup", "Food", "t0", "2025-01-01", none,
      none⟩], []⟩ ⟨"tea", 1, "cup", categoryOther, "", none, none⟩ "tn" "n1" true =
      { db := { items := [⟨"a", "Tea", 2, "cup", "Food", "t0", "2025-01-01", none,
          none⟩].map (fun row => if row.id == (⟨"a", "Tea", 2, "cup", "Food", "t0",
            "2025-01-01", none, none⟩ : PantryItem).id then
          cloudApplyMergePayload ⟨"a", "Tea", 2, "cup", "Food", "t0", "2025-01-01",
            none, none⟩ ⟨"tea", 1, "cup", categoryOther, "", none, none⟩ row
          else row), orders := [] },
        success := true, message := "Restocked " ++ "Tea" }) ∧
    (addOrUpdateItemCloud ⟨[], []⟩ ⟨"tea", 1, "cup", categoryOther, "", none, none⟩
      "tn" "n1" true =
      { db := { items := [newCloudRow ⟨"tea", 1, "cup", categoryOther, "", none,
          none⟩ "n1" "tn"], orders := [] },
        success := true, message := "Added " ++ "tea" }) := by
  have h1 := claim3_amended [⟨"a", "Tea", 2, "cup", "Food", "t0", "2025-01-01",
    none, none⟩] ⟨[⟨"a", "Tea", 2, "cup", "Food", "t0", "2025-01-01", none, none⟩],
    []⟩ ⟨"a", "Tea", 2, "cup", "Food", "t0", "2025-01-01", none, none⟩
    ⟨"tea", 1, "cup", categoryOther, "", none, none⟩ "f1" "tn" "n1"
  have h2 := claim3_amended [] ⟨[], []⟩
    ⟨"a", "Tea", 2, "cup", "Food", "t0", "2025-01-01", none, none⟩
    ⟨"tea", 1, "cup", categoryOther, "", none, none⟩ "f1" "tn" "n1"
  exact ⟨h1.2.2.1 (by decide), h2.2.2.2.1 rfl, h1.2.2.2.2.1 (by decide),
    h2.2.2.2.2.2 rfl⟩

/-- C8 counterexample: in remote mode with an empty items table,
seedInitialData writes all 17 demo records to the remote backend, so it is
not a no op in remote mode. -/
theorem claim8_counterexample :
    (seedInitialDataCloud ⟨[], []⟩ (fun k => toString k) "t0").items.length = 17 ∧
    seedInitialDataCloud ⟨[], []⟩ (fun k => toString k) "t0" ≠ ⟨[], []⟩ := by
  decide

/-- C8 amended: seedInitialData populates the starter catalog only when the
fetched collection is empty and is a no op when it is non empty, in both
modes; in remote mode with an empty items table it does write the demo data
to the remote backend. -/
theorem claim8_amended (items : List PantryItem) (freshId dbId : Nat → String)
    (now : String) (db : RemoteDB) :
    (items ≠ [] → seedInitialDataLocal items freshId now = items) ∧
    (db.items ≠ [] → seedInitialDataCloud db dbId now = db) ∧
    (seedInitialDataLocal [] (fun k => toString k) "t0").length = 17 := by
  refine ⟨?_, ?_, by decide⟩
  · intro h
    have hl : items.length > 0 := List.length_pos.mpr h
    simp only [seedInitialDataLocal, if_pos hl]
  · intro h
    have hl : (cloudGetItems db).length > 0 := by
      rw [cloudGetItems, List.length_insertionSort]
      exact List.length_pos.mpr h
    simp only [seedInitialDataCloud, if_pos hl]

/-- C8 witness: seeding is a no op on a concrete non empty local catalog and
a concrete non empty remote table. -/
theorem claim8_witness :
    (seedInitialDataLocal [⟨"a", "Tea", 2, "cup", "Food", "t0", "", none, none⟩]
      (fun k => toString k) "t9" =
      [⟨"a", "Tea", 2, "cup", "Food", "t0", "", none, none⟩]) ∧
    (seedInitialDataCloud ⟨[⟨"a", "Tea", 2, "cup", "Food", "t0", "", none, none⟩],
      []⟩ (fun k => toString k) "t9" =
      ⟨[⟨"a", "Tea", 2, "cup", "Food", "t0", "", none, none⟩], []⟩) ∧
    (seedInitialDataLocal [] (fun k => toString k) "t0").length = 17 := by
  have h := claim8_amended [⟨"a", "Tea", 2, "cup", "Food", "t0", "", none, none⟩]
    (fun k => toString k) (fun k => toString k) "t9"
    ⟨[⟨"a", "Tea", 2, "cup", "Food", "t0", "", none, none⟩], []⟩
  exact ⟨h.1 (by simp), h.2.1 (by simp), h.2.2⟩

end Pantry
